import Mathlib

/-!
Verification of the refresh-token lifecycle subsystem of the
`fastapi-boilerplate` repository: the token ledger
(`src/modules/auth/repositories/refresh_token_repo.py`), the Redis token
cache (`src/core/services/redis_service.py`) and the rotation engine
(`src/modules/auth/service.py`).

Modelling conventions:
* Record ids are `Nat`.  The source uses UUID4 primary keys generated by
  the database default; id generation is a random oracle, so every
  operation that creates a record takes the fresh id as an explicit
  argument.
* Instants are `Int`, counting microseconds (the resolution of Python
  `datetime`).  Each operation takes the clock value it would read from
  `datetime.now(UTC)` as an explicit `now` argument; the several clock
  reads inside one repository call are modelled as a single instant.
* The ledger (the `refresh_tokens` table) is a `List RefreshToken`; a SQL
  `UPDATE ... WHERE cond SET vals` is a conditional map over the rows, and
  its `rowcount` is the number of rows matching `cond`.
* The SHA-256 digest of `security_service.hash_token` is modelled as an
  injective tagging function: the subsystem depends only on the hash being
  deterministic and collision-free.
-/

namespace RefreshTokens

/-- One row of the `refresh_tokens` table
(`src/modules/auth/models/refresh_token.py`). -/
structure RefreshToken where
  id : Nat
  user_id : Nat
  token_hash : String
  device_id : Option String := none
  device_name : Option String := none
  user_agent : Option String := none
  ip_address : Option String := none
  expires_at : Int
  is_revoked : Bool := false
  revoked_at : Option Int := none
  replaced_by_id : Option Nat := none
  parent_token_id : Option Nat := none
deriving Repr, DecidableEq

/-- The durable ledger: the rows of the `refresh_tokens` table. -/
abbrev Ledger := List RefreshToken

/-- Number of microseconds in one second: Python
`timedelta.total_seconds()` divides the microsecond-resolution duration by
this factor. -/
def usecPerSec : Int := 1000000

/-- `BaseRepository.get` (`src/core/repository.py`): primary-key lookup. -/
def getById (L : Ledger) (i : Nat) : Option RefreshToken :=
  L.find? (fun t => t.id == i)

/-- `RefreshTokenRepository.get_by_token_hash`: `SELECT ... WHERE
token_hash == h` with `scalar_one_or_none` (first matching row; the column
carries a unique constraint). -/
def get_by_token_hash (L : Ledger) (h : String) : Option RefreshToken :=
  L.find? (fun t => t.token_hash == h)

/-- A SQL `UPDATE ... WHERE cond ... VALUES vals` over the table: rows
satisfying `cond` are rewritten by `vals`, all others kept; the returned
`rowcount` is the number of rows matched. -/
def sqlUpdate (L : Ledger) (cond : RefreshToken → Bool)
    (vals : RefreshToken → RefreshToken) : Ledger × Nat :=
  (L.map fun t => if cond t then vals t else t, (L.filter cond).length)

/-- `RefreshTokenRepository.create_token`: inserts a new non-revoked row
with `expires_at = now + expires_delta` and the given parent pointer.  The
fresh primary key `i` is the UUID4 column default, passed explicitly. -/
def create_token (L : Ledger) (i : Nat) (user_id : Nat) (token_hash : String)
    (device_id device_name user_agent ip_address : Option String)
    (expires_delta : Int) (parent_token_id : Option Nat) (now : Int) : Ledger :=
  L ++ [{ id := i, user_id := user_id, token_hash := token_hash,
          device_id := device_id, device_name := device_name,
          user_agent := user_agent, ip_address := ip_address,
          expires_at := now + expires_delta,
          parent_token_id := parent_token_id }]

/-- `RefreshTokenRepository.revoke_token`: `UPDATE ... WHERE id == token_id
VALUES (is_revoked=True, revoked_at=now, replaced_by_id=replaced_by_id)`;
returns `rowcount > 0`. -/
def revoke_token (L : Ledger) (token_id : Nat) (replaced_by_id : Option Nat)
    (now : Int) : Ledger × Bool :=
  let r := sqlUpdate L (fun t => t.id == token_id)
    (fun t => { t with is_revoked := true, revoked_at := some now,
                       replaced_by_id := replaced_by_id })
  (r.1, r.2 > 0)

/-- The `while current.parent_token_id:` loop of
`RefreshTokenRepository.revoke_token_chain`: collect the ids of the
ancestors of `current`, following `parent_token_id` backward, appending a
parent only when its lookup succeeds and stopping at the first record with
no parent or whose parent lookup fails.  The Python loop has no fuel; it
terminates exactly when the parent pointers are well-founded, and under
the ledger invariant "a record's parent has a strictly smaller id" the
fuel `current.id` is provably sufficient (`collectChain_complete`). -/
def collectChain (L : Ledger) : Nat → RefreshToken → List Nat
  | 0, _ => []
  | fuel + 1, current =>
    match current.parent_token_id with
    | none => []
    | some pid =>
      match getById L pid with
      | none => []
      | some parent => parent.id :: collectChain L fuel parent

/-- The ancestor ids that `revoke_token_chain` starting from id `i` walks
through. -/
def chainIds (L : Ledger) (i : Nat) : List Nat :=
  match getById L i with
  | none => []
  | some token => collectChain L token.id token

/-- `RefreshTokenRepository.revoke_token_chain`: fetch the record, walk the
parent links collecting ancestor ids, then `UPDATE ... WHERE id IN chain
VALUES (is_revoked=True, revoked_at=now)`; returns the rowcount (0 when
the record is missing or the chain is empty). -/
def revoke_token_chain (L : Ledger) (token_id : Nat) (now : Int) : Ledger × Nat :=
  match getById L token_id with
  | none => (L, 0)
  | some token =>
    let chain := collectChain L token.id token
    if chain.isEmpty then (L, 0)
    else sqlUpdate L (fun t => chain.contains t.id)
      (fun t => { t with is_revoked := true, revoked_at := some now })

/-- `RefreshTokenRepository.revoke_all_user_tokens`: bulk `UPDATE` of the
user's non-revoked rows, optionally sparing one id (the `if
except_token_id:` guard adds the `id != except_token_id` condition). -/
def revoke_all_user_tokens (L : Ledger) (user_id : Nat)
    (except_token_id : Option Nat) (now : Int) : Ledger × Nat :=
  sqlUpdate L
    (fun t => t.user_id == user_id && !t.is_revoked &&
      (match except_token_id with
       | some e => t.id != e
       | none => true))
    (fun t => { t with is_revoked := true, revoked_at := some now })

/-- `RefreshTokenRepository.revoke_device_tokens`: bulk `UPDATE` of the
user's non-revoked rows for one device. -/
def revoke_device_tokens (L : Ledger) (user_id : Nat) (device_id : String)
    (now : Int) : Ledger × Nat :=
  sqlUpdate L
    (fun t => t.user_id == user_id && t.device_id == some device_id &&
      !t.is_revoked)
    (fun t => { t with is_revoked := true, revoked_at := some now })

/-- `RefreshTokenRepository.cleanup_expired_tokens`: `DELETE ... WHERE
expires_at < now`; returns the number of rows deleted. -/
def cleanup_expired_tokens (L : Ledger) (now : Int) : Ledger × Nat :=
  (L.filter (fun t => !(t.expires_at < now)),
   (L.filter (fun t => t.expires_at < now)).length)

/-- `RefreshTokenRepository.is_token_valid`: the record for the hash
exists, is not revoked, and `not token.expires_at < now` (note: `>=`, not
strict futurity). -/
def is_token_valid (L : Ledger) (token_hash : String) (now : Int) : Bool :=
  match get_by_token_hash L token_hash with
  | none => false
  | some token =>
    if token.is_revoked then false
    else !(token.expires_at < now)

/-- The value cached per token (`RedisService.cache_refresh_token` stores
`user_id`, `device_id` and `expires_at` as JSON). -/
structure CachedToken where
  user_id : Nat
  device_id : Option String
  expires_at : Int
deriving Repr, DecidableEq

/-- One Redis key with its value and the TTL it was set with. -/
structure CacheItem where
  key : String
  value : CachedToken
  ttl : Int
deriving Repr, DecidableEq

/-- The fast-path cache: the Redis keyspace used for tokens. -/
abbrev Cache := List CacheItem

/-- Redis `SET key value EX ttl`: overwrites any previous entry at the
key. -/
def redisSet (c : Cache) (key : String) (v : CachedToken) (ttl : Int) : Cache :=
  { key := key, value := v, ttl := ttl } :: c.filter (fun it => it.key != key)

/-- The cache key scheme of `RedisService`: `refresh_token:{hash}` (the
brace is interpolation in the source, plain concatenation here). -/
def cacheKey (token_hash : String) : String :=
  "refresh_token:" ++ token_hash

/-- `RedisService.cache_refresh_token`: computes
`ttl = int((expires_at - now).total_seconds())` — the remaining duration
in whole seconds, truncated toward zero exactly as Python `int()` does —
and writes the entry only when `ttl > 0`. -/
def cache_refresh_token (c : Cache) (token_hash : String) (user_id : Nat)
    (device_id : Option String) (expires_at : Int) (now : Int) : Cache :=
  let ttl := Int.tdiv (expires_at - now) usecPerSec
  if ttl > 0 then
    redisSet c (cacheKey token_hash) ⟨user_id, device_id, expires_at⟩ ttl
  else c

/-- `RedisService.get_cached_token`: pure key lookup (Redis-side TTL decay
between operations is not modelled; no claim depends on it). -/
def get_cached_token (c : Cache) (token_hash : String) : Option CachedToken :=
  (c.find? (fun it => it.key == cacheKey token_hash)).map (fun it => it.value)

/-- `RedisService.invalidate_token_cache`: delete the key. -/
def invalidate_token_cache (c : Cache) (token_hash : String) : Cache :=
  c.filter (fun it => it.key != cacheKey token_hash)

/-- The slice of the `users` table the rotation engine reads
(`UserRepository.get` and the `is_active` check). -/
structure User where
  id : Nat
  is_active : Bool
deriving Repr, DecidableEq

/-- The state touched by `AuthService`: the durable ledger, the Redis
cache and the user table. -/
structure World where
  ledger : Ledger
  cache : Cache
  users : List User
deriving Repr, DecidableEq

/-- `security_service.hash_token`: the SHA-256 hex digest, modelled as an
injective tagging function (the subsystem uses only its determinism and
collision-freeness). -/
def hash_token (token : String) : String :=
  "sha256:" ++ token

/-- `security_service.create_access_token`: a signed JWT carrying the
subject, modelled as a tag (no claim inspects its contents). -/
def create_access_token (subject : Nat) : String :=
  "jwt:" ++ toString subject

/-- Python `a or b` on optional strings: `None` and the empty string are
falsy. -/
def pyOr (a b : Option String) : Option String :=
  match a with
  | some s => if s == "" then b else some s
  | none => b

/-- The pair returned to the client. -/
structure TokenPair where
  access_token : String
  refresh_token : String
deriving Repr, DecidableEq

/-- `AuthService._create_token_pair`: mint an access token, store the new
refresh record (non-revoked, no parent yet) and write through to the
cache.  The random secret from `create_refresh_token` and the fresh UUID
are oracle inputs `newSecret` and `newId`; `refreshTTL` is
`REFRESH_TOKEN_EXPIRE_DAYS` as a duration. -/
def create_token_pair (w : World) (user : User)
    (device_id device_name user_agent ip_address : Option String)
    (newSecret : String) (newId : Nat) (refreshTTL : Int) (now : Int) :
    World × TokenPair :=
  let access := create_access_token user.id
  let token_hash := hash_token newSecret
  let expires_at := now + refreshTTL
  let ledger := create_token w.ledger newId user.id token_hash device_id
    device_name user_agent ip_address refreshTTL none now
  let cache := cache_refresh_token w.cache token_hash user.id device_id
    expires_at now
  (⟨ledger, cache, w.users⟩, ⟨access, newSecret⟩)

/-- `BaseRepository.update(new_db_token, parent_token_id := old.id)`:
set the backward link on the freshly created record. -/
def update_record_parent (L : Ledger) (i : Nat) (pid : Nat) : Ledger :=
  (sqlUpdate L (fun t => t.id == i)
    (fun t => { t with parent_token_id := some pid })).1

/-- The distinguishable outcomes of `AuthService.refresh_access_token`
(the `AuthenticationError` messages of the source). -/
inductive RefreshOutcome where
  | success (pair : TokenPair)
  | tokenReused
  | invalidOrExpired
  | invalidToken
  | userInactive
deriving Repr, DecidableEq

/-- `AuthService.refresh_access_token`: the rotation algorithm.  The
cached and uncached branches of the source run the same ledger validity
check and reuse handling; they differ only in that the cached branch also
invalidates the cache entry on reuse.  State changes performed before an
`AuthenticationError` is raised persist, so failures also return the
updated world. -/
def refresh_access_token (w : World) (refresh_token : String)
    (device_id device_name user_agent ip_address : Option String)
    (newSecret : String) (newId : Nat) (refreshTTL : Int) (now : Int) :
    World × RefreshOutcome :=
  let token_hash := hash_token refresh_token
  let cached := get_cached_token w.cache token_hash
  if is_token_valid w.ledger token_hash now then
    match get_by_token_hash w.ledger token_hash with
    | none => (w, .invalidToken)
    | some db_token =>
      match w.users.find? (fun u => u.id == db_token.user_id) with
      | none => (w, .userInactive)
      | some user =>
        if !user.is_active then (w, .userInactive)
        else
          let r1 := create_token_pair w user
            (pyOr device_id db_token.device_id)
            (pyOr device_name db_token.device_name) user_agent ip_address
            newSecret newId refreshTTL now
          let w1 := r1.1
          let new_token_hash := hash_token r1.2.refresh_token
          let new_db_token := get_by_token_hash w1.ledger new_token_hash
          let ledger2 := match new_db_token with
            | some nt => update_record_parent w1.ledger nt.id db_token.id
            | none => w1.ledger
          let ledger3 := (revoke_token ledger2 db_token.id
            (new_db_token.map (fun t => t.id)) now).1
          let cache2 := invalidate_token_cache w1.cache token_hash
          (⟨ledger3, cache2, w.users⟩, .success r1.2)
  else
    match get_by_token_hash w.ledger token_hash with
    | some db_token =>
      if db_token.is_revoked then
        let ledger2 := (revoke_token_chain w.ledger db_token.id now).1
        let cache2 :=
          if cached.isSome then invalidate_token_cache w.cache token_hash
          else w.cache
        (⟨ledger2, cache2, w.users⟩, .tokenReused)
      else (w, .invalidOrExpired)
    | none => (w, .invalidOrExpired)

/-- `AuthService.logout_all_devices`: resolve the optional spared token to
its record id (only when it exists and belongs to the user), then
bulk-revoke via `revoke_all_user_tokens`. -/
def logout_all_devices (w : World) (user_id : Nat)
    (except_token : Option String) (now : Int) : World × Nat :=
  let except_token_id :=
    match except_token with
    | none => none
    | some tok =>
      if tok == "" then none
      else
        match get_by_token_hash w.ledger (hash_token tok) with
        | some db_token =>
          if db_token.user_id == user_id then some db_token.id else none
        | none => none
  let r := revoke_all_user_tokens w.ledger user_id except_token_id now
  (⟨r.1, w.cache, w.users⟩, r.2)

/-! Auxiliary definitions used by the theorems. -/

/-- `AncestorId L c x`: `x` is the id of a strict ancestor of the record
with id `c`, reached by following `parent_token_id` links backward where
every traversed record resolves by id lookup — the declarative description
of the chain walk. -/
inductive AncestorId (L : Ledger) : Nat → Nat → Prop where
  | parent {c : Nat} {tok : RefreshToken} {p : Nat} {pt : RefreshToken} :
      getById L c = some tok → tok.parent_token_id = some p →
      getById L p = some pt → AncestorId L c p
  | step {c : Nat} {tok : RefreshToken} {p : Nat} {pt : RefreshToken} {x : Nat} :
      getById L c = some tok → tok.parent_token_id = some p →
      getById L p = some pt → AncestorId L p x → AncestorId L c x

/-- The ledger invariant "a new record always references a strictly older
one" (spec section 3): every parent pointer targets a smaller id.  This is
what makes the source's unbounded `while` loop terminate. -/
def parentsOlder (L : Ledger) : Bool :=
  L.all fun t =>
    match t.parent_token_id with
    | none => true
    | some p => decide (p < t.id)

/-- Monotonicity of revocation between a ledger state and a successor
state: no record readable as revoked before is readable as non-revoked
after. -/
def noUnrevoke (L L' : Ledger) : Prop :=
  ∀ i t t', getById L i = some t → t.is_revoked = true →
    getById L' i = some t' → t'.is_revoked = true

/-- A three-record rotation chain `0 → 1 → 2` (records 0 and 1 already
rotated away, record 2 live), used to instantiate the chain theorems. -/
def chainLedgerW : Ledger :=
  [{ id := 2, user_id := 7, token_hash := "sha256:c", expires_at := 50,
     parent_token_id := some 1 },
   { id := 1, user_id := 7, token_hash := "sha256:b", expires_at := 40,
     is_revoked := true, revoked_at := some 3, replaced_by_id := some 2,
     parent_token_id := some 0 },
   { id := 0, user_id := 7, token_hash := "sha256:a", expires_at := 30,
     is_revoked := true, revoked_at := some 2, replaced_by_id := some 1 }]

/-- The row shape `create_token` inserts: non-revoked, with the given
expiry and parent pointer. -/
def mintedRec (i uid : Nat) (th : String) (did dn ua ip : Option String)
    (exp : Int) (parent : Option Nat) : RefreshToken :=
  { id := i, user_id := uid, token_hash := th, device_id := did,
    device_name := dn, user_agent := ua, ip_address := ip,
    expires_at := exp, is_revoked := false, revoked_at := none,
    replaced_by_id := none, parent_token_id := parent }

/-- Fixture: a record that has already been revoked (and linked forward),
as it stands after a rotation. -/
def revokedRecC2 : RefreshToken :=
  { id := 0, user_id := 0, token_hash := "sha256:a", expires_at := 100,
    is_revoked := true, revoked_at := some 1, replaced_by_id := some 9 }

/-- Fixture: a live record about to be revoked. -/
def freshRecC6 : RefreshToken :=
  { id := 0, user_id := 0, token_hash := "sha256:f", expires_at := 100 }

/-- Fixture: sole record of a one-row ledger, with id 0. -/
def soleRecC10 : RefreshToken :=
  { id := 0, user_id := 4, token_hash := "sha256:m", expires_at := 100 }

/-- Fixture: a one-row ledger holding a currently valid record. -/
def validLedgerW : Ledger :=
  [{ id := 5, user_id := 1, token_hash := "sha256:w", expires_at := 10 }]

/-- Fixture: an already-revoked record owned by user 0. -/
def recC9 : RefreshToken :=
  { id := 0, user_id := 0, token_hash := "sha256:n", expires_at := 100,
    is_revoked := true, revoked_at := some 2 }

/-- Fixture: a valid record for user 1 presented for rotation (C4). -/
def tokC4 : RefreshToken :=
  { id := 5, user_id := 1, token_hash := hash_token "s", expires_at := 10 }

/-- Fixture: the world holding `tokC4` and its active owner. -/
def wC4 : World :=
  { ledger := [tokC4], cache := [], users := [{ id := 1, is_active := true }] }

/-- Fixture: the single active user of the scenario pipelines. -/
def userZero : User := { id := 0, is_active := true }

/-- Fixture: the initial world of the scenario pipelines: empty ledger
and cache, one active user. -/
def worldZero : World := { ledger := [], cache := [], users := [userZero] }

/-- Scenario C1, step 0: login of user 0, minting secret `A` as chain
root (record id 10), clock 0, TTL of 10 s in µs. -/
def wA1 : World :=
  (create_token_pair worldZero userZero none none none none "A" 10
    10000000 0).1

/-- Scenario C1, step 1: legitimate rotation of `A` to `B` (record 11). -/
def rA2 : World × RefreshOutcome :=
  refresh_access_token wA1 "A" none none none none "B" 11 10000000 1

/-- Scenario C1, step 2: the attacker replays the rotated-away `A`. -/
def rA3 : World × RefreshOutcome :=
  refresh_access_token rA2.1 "A" none none none none "C" 12 10000000 2

/-- Scenario C1, step 3: the legitimate holder then presents `B`. -/
def rA4 : World × RefreshOutcome :=
  refresh_access_token rA3.1 "B" none none none none "D" 13 10000000 3

/-- Scenario C7, step 0: user 0 logs in on device `D1`, chain root `t0`
(record 100). -/
def wD1 : World :=
  (create_token_pair worldZero userZero (some "D1") none none none "t0" 100
    10000000 0).1

/-- Scenario C7: first rotation, `t0` to `t1` (record 101). -/
def wD2 : World :=
  (refresh_access_token wD1 "t0" none none none none "t1" 101 10000000 1).1

/-- Scenario C7: second rotation, `t1` to `t2` (record 102). -/
def wD3 : World :=
  (refresh_access_token wD2 "t1" none none none none "t2" 102 10000000 2).1

/-- Scenario C7: third rotation, `t2` to `t3` (record 103). -/
def wD4 : World :=
  (refresh_access_token wD3 "t2" none none none none "t3" 103 10000000 3).1

/-- Scenario C7: `logout_all` sparing the current secret `t3`. -/
def wD5 : World :=
  (logout_all_devices wD4 0 (some "t3") 4).1

/-- Fixture: a non-revoked record of user 3 hit by the bulk revoke. -/
def recW7 : RefreshToken :=
  { id := 1, user_id := 3, token_hash := "sha256:u", expires_at := 90 }

/-- Fixture: the record of user 3 spared by the bulk revoke. -/
def sparedW7 : RefreshToken :=
  { id := 2, user_id := 3, token_hash := "sha256:v", expires_at := 90 }

/-! Helper lemmas about the embedded operations. -/

/-- Finding a row by id commutes with an id-preserving row rewrite. -/
theorem getById_map (L : Ledger) (f : RefreshToken → RefreshToken)
    (hf : ∀ t, (f t).id = t.id) (i : Nat) :
    getById (L.map f) i = (getById L i).map f := by
  unfold getById
  rw [List.find?_map]
  have hp : ((fun t => t.id == i) ∘ f) = (fun t : RefreshToken => t.id == i) := by
    funext t
    simp [Function.comp, hf]
  rw [hp]

/-- Finding a row by id after a SQL `UPDATE` whose `SET` clause keeps the
primary key: the found row is the rewritten original. -/
theorem getById_sqlUpdate (L : Ledger) (cond : RefreshToken → Bool)
    (vals : RefreshToken → RefreshToken) (hv : ∀ t, (vals t).id = t.id) (i : Nat) :
    getById (sqlUpdate L cond vals).1 i =
      (getById L i).map (fun t => if cond t then vals t else t) := by
  apply getById_map
  intro t
  by_cases h : cond t <;> simp [h, hv t]

/-- A row found by id has that id and is in the table. -/
theorem getById_spec {L : Ledger} {i : Nat} {t : RefreshToken}
    (h : getById L i = some t) : t ∈ L ∧ t.id = i := by
  refine ⟨List.mem_of_find?_eq_some h, ?_⟩
  have := List.find?_some h
  simpa using this

/-- With pairwise-distinct primary keys, looking up a row's own id finds
that row. -/
theorem getById_of_mem {L : Ledger} (hN : (L.map RefreshToken.id).Nodup)
    {t : RefreshToken} (ht : t ∈ L) : getById L t.id = some t := by
  induction L with
  | nil => cases ht
  | cons a l ih =>
    have hN' : a.id ∉ l.map RefreshToken.id ∧ (l.map RefreshToken.id).Nodup := by
      rw [List.map_cons, List.nodup_cons] at hN
      exact hN
    rcases List.mem_cons.mp ht with rfl | hmem
    · simp [getById, List.find?_cons]
    · have hne : a.id ≠ t.id := by
        intro he
        exact hN'.1 (he ▸ (List.mem_map.mpr ⟨t, hmem, rfl⟩))
      have := ih hN'.2 hmem
      simpa [getById, List.find?_cons, hne] using this

/-- A row found by hash has that hash and is in the table. -/
theorem get_by_token_hash_spec {L : Ledger} {h : String} {t : RefreshToken}
    (hf : get_by_token_hash L h = some t) : t ∈ L ∧ t.token_hash = h := by
  refine ⟨List.mem_of_find?_eq_some hf, ?_⟩
  have := List.find?_some hf
  simpa using this

/-- Inserting a row with a hash absent from the table makes that hash
resolve to the new row. -/
theorem get_by_token_hash_append_fresh (L : Ledger) (new : RefreshToken)
    (hfresh : ∀ t ∈ L, t.token_hash ≠ new.token_hash) :
    get_by_token_hash (L ++ [new]) new.token_hash = some new := by
  unfold get_by_token_hash
  rw [List.find?_append]
  have h1 : L.find? (fun t => t.token_hash == new.token_hash) = none :=
    List.find?_eq_none.mpr (by intro x hx; simpa using hfresh x hx)
  simp [h1, List.find?_singleton]

/-- Looking up an id absent from the left part of an appended table falls
through to the right part. -/
theorem getById_append_right (L M : Ledger) (i : Nat)
    (h : ∀ t ∈ L, t.id ≠ i) :
    getById (L ++ M) i = getById M i := by
  unfold getById
  rw [List.find?_append]
  have h1 : L.find? (fun t => t.id == i) = none :=
    List.find?_eq_none.mpr (by intro x hx; simpa using h x hx)
  simp [h1]

/-- A hit in the left part of an appended table is a hit in the whole. -/
theorem getById_append_left {L : Ledger} (M : Ledger) {i : Nat}
    {t : RefreshToken} (h : getById L i = some t) :
    getById (L ++ M) i = some t := by
  unfold getById at h ⊢
  rw [List.find?_append, h]
  rfl

/-- Truncating division by one second is positive exactly when at least
one full second remains. -/
theorem tdiv_usec_pos_iff (a : Int) : 0 < Int.tdiv a usecPerSec ↔ usecPerSec ≤ a := by
  rcases le_or_lt 0 a with h | h
  · rw [Int.tdiv_eq_ediv h (by norm_num [usecPerSec])]
    unfold usecPerSec
    omega
  · have h2 : Int.tdiv a usecPerSec ≤ 0 := by
      have hn : 0 ≤ Int.tdiv (-a) usecPerSec :=
        Int.tdiv_nonneg (by omega) (by norm_num [usecPerSec])
      rw [Int.neg_tdiv] at hn
      omega
    constructor
    · intro hp; omega
    · intro hle; exfalso; unfold usecPerSec at hle; omega

/-- Unpacking `parentsOlder`. -/
theorem parentsOlder_lt {L : Ledger} (h : parentsOlder L = true)
    {t : RefreshToken} (ht : t ∈ L) {p : Nat}
    (hp : t.parent_token_id = some p) : p < t.id := by
  have h2 := List.all_eq_true.mp h t ht
  rw [hp] at h2
  exact of_decide_eq_true h2

/-- Every strict ancestor has a strictly smaller id. -/
theorem AncestorId_lt {L : Ledger} (hdec : parentsOlder L = true)
    {c x : Nat} (h : AncestorId L c x) : x < c := by
  induction h with
  | parent hc hp _ =>
    have hs := getById_spec hc
    have := parentsOlder_lt hdec hs.1 hp
    omega
  | step hc hp _ _ ih =>
    have hs := getById_spec hc
    have := parentsOlder_lt hdec hs.1 hp
    omega

/-- Soundness of the walk: with distinct primary keys, every id the loop
collects is a resolvable strict ancestor of the starting record. -/
theorem collectChain_sound (L : Ledger) (hN : (L.map RefreshToken.id).Nodup) :
    ∀ (fuel : Nat) (current : RefreshToken), current ∈ L →
      ∀ x ∈ collectChain L fuel current, AncestorId L current.id x := by
  intro fuel
  induction fuel with
  | zero =>
    intro current _ x hx
    simp [collectChain] at hx
  | succ f ih =>
    intro current hcur x hx
    cases hpar : current.parent_token_id with
    | none => simp [collectChain, hpar] at hx
    | some pid =>
      cases hget : getById L pid with
      | none => simp [collectChain, hpar, hget] at hx
      | some parent =>
        simp only [collectChain, hpar, hget] at hx
        have hcid : getById L current.id = some current := getById_of_mem hN hcur
        have hps := getById_spec hget
        rcases List.mem_cons.mp hx with rfl | hrest
        · exact hps.2 ▸ AncestorId.parent hcid hpar hget
        · have hanc := ih parent hps.1 x hrest
          exact AncestorId.step hcid hpar hget (hps.2 ▸ hanc)

/-- Completeness of the walk: under the older-parent invariant the fuel
`current.id` never runs out, so the loop reaches every resolvable strict
ancestor. -/
theorem collectChain_complete (L : Ledger) (hN : (L.map RefreshToken.id).Nodup)
    (hdec : parentsOlder L = true) :
    ∀ (fuel : Nat) (current : RefreshToken), current ∈ L → current.id ≤ fuel →
      ∀ x, AncestorId L current.id x → x ∈ collectChain L fuel current := by
  intro fuel
  induction fuel with
  | zero =>
    intro current hcur hle x hanc
    have hcid : getById L current.id = some current := getById_of_mem hN hcur
    exfalso
    cases hanc with
    | parent hc hp _ =>
      rw [hcid] at hc
      cases hc
      have := parentsOlder_lt hdec hcur hp
      omega
    | step hc hp _ _ =>
      rw [hcid] at hc
      cases hc
      have := parentsOlder_lt hdec hcur hp
      omega
  | succ f ih =>
    intro current hcur hle x hanc
    have hcid : getById L current.id = some current := getById_of_mem hN hcur
    cases hanc with
    | parent hc hp hg =>
      rw [hcid] at hc
      cases hc
      simp only [collectChain, hp, hg]
      rw [(getById_spec hg).2]
      exact List.mem_cons_self _ _
    | step hc hp hg htail =>
      rw [hcid] at hc
      cases hc
      have hps := getById_spec hg
      have hlt := parentsOlder_lt hdec hcur hp
      have hx := ih _ hps.1 (by omega) x (hps.2 ▸ htail)
      simp only [collectChain, hp, hg]
      exact List.mem_cons_of_mem _ hx

/-- The collected chain is exactly the set of resolvable strict
ancestors. -/
theorem chainIds_iff (L : Ledger) (hN : (L.map RefreshToken.id).Nodup)
    (hdec : parentsOlder L = true) (i x : Nat) :
    x ∈ chainIds L i ↔ AncestorId L i x := by
  unfold chainIds
  cases hget : getById L i with
  | none =>
    simp only [List.not_mem_nil, false_iff]
    intro hanc
    cases hanc with
    | parent hc _ _ => rw [hget] at hc; cases hc
    | step hc _ _ _ => rw [hget] at hc; cases hc
  | some token =>
    have htok := getById_spec hget
    constructor
    · intro hx
      have := collectChain_sound L hN token.id token htok.1 x hx
      rwa [htok.2] at this
    · intro hanc
      exact collectChain_complete L hN hdec token.id token htok.1 le_rfl x
        (by rwa [htok.2])

/-! Claim C5: chain revocation semantics. -/

/-- C5: `revoke_token_chain L i now` follows `parent_token_id` links
strictly backward: the walked ids (`chainIds`) are exactly the resolvable
strict ancestors of the triggering record (the walk stops at the first
record with no parent or whose parent lookup fails, which is what
`AncestorId` encodes); all walked ids are strictly older than the trigger;
each walked ancestor is marked revoked; every record outside the walk — in
particular the triggering record itself and every record at least as new,
hence every descendant — is unchanged; and the returned count is the
number of ledger rows whose id was walked. -/
theorem revoke_token_chain_spec (L : Ledger) (i : Nat) (now : Int)
    (hN : (L.map RefreshToken.id).Nodup) (hdec : parentsOlder L = true) :
    (∀ x, x ∈ chainIds L i ↔ AncestorId L i x) ∧
    (∀ x ∈ chainIds L i, x < i) ∧
    (∀ t ∈ L, t.id ∈ chainIds L i →
      { t with is_revoked := true, revoked_at := some now } ∈
        (revoke_token_chain L i now).1) ∧
    (∀ t ∈ L, t.id ∉ chainIds L i → t ∈ (revoke_token_chain L i now).1) ∧
    (∀ t ∈ L, i ≤ t.id → t ∈ (revoke_token_chain L i now).1) ∧
    (revoke_token_chain L i now).2 =
      (L.filter (fun t => (chainIds L i).contains t.id)).length := by
  have hiff := chainIds_iff L hN hdec i
  have hlt : ∀ x ∈ chainIds L i, x < i := fun x hx =>
    AncestorId_lt hdec ((hiff x).mp hx)
  cases hget : getById L i with
  | none =>
    have hchain : chainIds L i = [] := by unfold chainIds; rw [hget]
    have hres : revoke_token_chain L i now = (L, 0) := by
      unfold revoke_token_chain; rw [hget]
    have h4 : ∀ t ∈ L, t.id ∉ chainIds L i → t ∈ (revoke_token_chain L i now).1 := by
      intro t ht _; rw [hres]; exact ht
    refine ⟨hiff, hlt, ?_, h4, ?_, ?_⟩
    · intro t _ hmem
      rw [hchain] at hmem
      cases hmem
    · intro t ht hge
      exact h4 t ht (fun hmem => by have := hlt _ hmem; omega)
    · rw [hres, hchain]
      simp
  | some token =>
    have hchain : chainIds L i = collectChain L token.id token := by
      unfold chainIds; rw [hget]
    by_cases hemp : (collectChain L token.id token).isEmpty
    · have hnil : collectChain L token.id token = [] := by
        simpa using hemp
      have hres : revoke_token_chain L i now = (L, 0) := by
        unfold revoke_token_chain
        rw [hget]
        simp [hemp]
      have h4 : ∀ t ∈ L, t.id ∉ chainIds L i → t ∈ (revoke_token_chain L i now).1 := by
        intro t ht _; rw [hres]; exact ht
      refine ⟨hiff, hlt, ?_, h4, ?_, ?_⟩
      · intro t _ hmem
        rw [hchain, hnil] at hmem
        cases hmem
      · intro t ht hge
        exact h4 t ht (fun hmem => by have := hlt _ hmem; omega)
      · rw [hres, hchain, hnil]
        simp
    · have hres : revoke_token_chain L i now =
          sqlUpdate L (fun t => (collectChain L token.id token).contains t.id)
            (fun t => { t with is_revoked := true, revoked_at := some now }) := by
        unfold revoke_token_chain
        rw [hget]
        simp [hemp]
      have h3 : ∀ t ∈ L, t.id ∈ chainIds L i →
          { t with is_revoked := true, revoked_at := some now } ∈
            (revoke_token_chain L i now).1 := by
        intro t ht hmem
        rw [hchain] at hmem
        have hc : (collectChain L token.id token).contains t.id = true :=
          List.elem_iff.mpr hmem
        rw [hres]
        unfold sqlUpdate
        exact List.mem_map.mpr ⟨t, ht, by rw [if_pos hc]⟩
      have h4 : ∀ t ∈ L, t.id ∉ chainIds L i → t ∈ (revoke_token_chain L i now).1 := by
        intro t ht hmem
        rw [hchain] at hmem
        have hc : ¬ ((collectChain L token.id token).contains t.id = true) :=
          fun hcc => hmem (List.elem_iff.mp hcc)
        rw [hres]
        unfold sqlUpdate
        exact List.mem_map.mpr ⟨t, ht, by rw [if_neg hc]⟩
      refine ⟨hiff, hlt, h3, h4, ?_, ?_⟩
      · intro t ht hge
        exact h4 t ht (fun hmem => by have := hlt _ hmem; omega)
      · rw [hres, hchain]
        rfl

/-- Witness for C5 at the concrete three-record chain. -/
theorem revoke_token_chain_spec_witness :
    (chainLedgerW.map RefreshToken.id).Nodup ∧
    parentsOlder chainLedgerW = true ∧
    (revoke_token_chain chainLedgerW 2 9).2 =
      (chainLedgerW.filter
        (fun t => (chainIds chainLedgerW 2).contains t.id)).length :=
  ⟨by decide, by decide,
    (revoke_token_chain_spec chainLedgerW 2 9 (by decide) (by decide)).2.2.2.2.2⟩

/-! Claim C3: the ledger validity predicate. -/

/-- C3 counterexample: a record whose `expires_at` equals the current
instant is accepted as valid — `is_token_valid` tests `not expires_at <
now`, i.e. `expires_at ≥ now`, so the claimed strict-future boundary
("a record with `expires_at` equal to now is expired") is false. -/
theorem is_token_valid_boundary_cex :
    is_token_valid
      [{ id := 0, user_id := 0, token_hash := "sha256:a", expires_at := 44 }]
      "sha256:a" 44 = true := by
  decide

/-- C3 (amended): `is_token_valid` returns true iff a record with the
hash exists, its `is_revoked` is false, and its `expires_at` is at `now`
or later; the boundary record with `expires_at = now` counts as valid. -/
theorem is_token_valid_iff (L : Ledger) (h : String) (now : Int)
    (hU : ∀ t₁ ∈ L, ∀ t₂ ∈ L, t₁.token_hash = t₂.token_hash → t₁ = t₂) :
    is_token_valid L h now = true ↔
      ∃ t ∈ L, t.token_hash = h ∧ t.is_revoked = false ∧ now ≤ t.expires_at := by
  cases hf : get_by_token_hash L h with
  | none =>
    simp only [is_token_valid, hf]
    constructor
    · intro hv
      exact absurd hv (by simp)
    · rintro ⟨t, ht, hth, -, -⟩
      have hnone := List.find?_eq_none.mp hf t ht
      rw [hth] at hnone
      simp at hnone
  | some tok =>
    have hs := get_by_token_hash_spec hf
    simp only [is_token_valid, hf]
    constructor
    · intro hv
      by_cases hr : tok.is_revoked
      · rw [if_pos hr] at hv
        exact absurd hv (by simp)
      · rw [if_neg hr] at hv
        refine ⟨tok, hs.1, hs.2, by simpa using hr, by simpa using of_decide_eq_true (by simpa using hv)⟩
    · rintro ⟨t, ht, hth, hrev, hexp⟩
      have heq : t = tok := hU t ht tok hs.1 (by rw [hth, hs.2])
      subst heq
      rw [if_neg (by simp [hrev])]
      simpa using hexp

/-- Witness for the amended C3 at a one-row ledger with a valid record. -/
theorem is_token_valid_iff_witness :
    (∀ t₁ ∈ validLedgerW, ∀ t₂ ∈ validLedgerW,
        t₁.token_hash = t₂.token_hash → t₁ = t₂) ∧
    (is_token_valid validLedgerW "sha256:w" 3 = true ↔
      ∃ t ∈ validLedgerW, t.token_hash = "sha256:w" ∧ t.is_revoked = false ∧
        (3:Int) ≤ t.expires_at) :=
  ⟨by decide, is_token_valid_iff validLedgerW "sha256:w" 3 (by decide)⟩

/-! Claim C2: the revoke step is not a conditional update. -/

/-- C2 counterexample: revoking a record that is already revoked does not
abort: the row is matched again, success is returned, and `revoked_at`
and `replaced_by_id` are overwritten — there is no "revoke iff still
non-revoked, else abort and report reuse" guard. -/
theorem revoke_token_not_conditional_cex :
    revokedRecC2.is_revoked = true ∧
    (revoke_token [revokedRecC2] 0 none 5).2 = true ∧
    (revoke_token [revokedRecC2] 0 none 5).1 =
      [{ revokedRecC2 with revoked_at := some 5, replaced_by_id := none }] := by
  decide

/-- C2 (amended): `revoke_token` is an unconditional single-row update:
whenever a row with the id exists — revoked or not — the update is applied
and success is returned; a failed guard never redirects rotation to the
reuse path. -/
theorem revoke_token_unconditional (L : Ledger) (i : Nat) (r : Option Nat)
    (now : Int) (t : RefreshToken) (ht : t ∈ L) (hid : t.id = i)
    (hN : (L.map RefreshToken.id).Nodup) :
    (revoke_token L i r now).2 = true ∧
    getById (revoke_token L i r now).1 i =
      some { t with is_revoked := true, revoked_at := some now,
                    replaced_by_id := r } := by
  constructor
  · have hmem : t ∈ L.filter (fun s => s.id == i) :=
      List.mem_filter.mpr ⟨ht, by simp [hid]⟩
    have hpos : 0 < (L.filter (fun s => s.id == i)).length :=
      List.length_pos.mpr (List.ne_nil_of_mem hmem)
    simpa [revoke_token, sqlUpdate] using hpos
  · have hstep : getById (revoke_token L i r now).1 i =
        (getById L i).map (fun s => if s.id == i then
          { s with is_revoked := true, revoked_at := some now,
                   replaced_by_id := r } else s) :=
      getById_sqlUpdate L _ _ (fun s => by by_cases h : s.id == i <;> simp [h]) i
    have hg : getById L i = some t := by
      rw [← hid]
      exact getById_of_mem hN ht
    rw [hstep, hg]
    simp [hid]

/-- Witness for the amended C2: an already-revoked row is matched and
overwritten. -/
theorem revoke_token_unconditional_witness :
    (revokedRecC2 ∈ [revokedRecC2] ∧ revokedRecC2.id = 0 ∧
      revokedRecC2.is_revoked = true) ∧
    getById (revoke_token [revokedRecC2] 0 (some 3) 7).1 0 =
      some { revokedRecC2 with is_revoked := true, revoked_at := some 7,
                               replaced_by_id := some 3 } :=
  ⟨⟨by decide, by decide, by decide⟩,
    (revoke_token_unconditional [revokedRecC2] 0 (some 3) 7 revokedRecC2
      (by decide) (by decide) (by decide)).2⟩

/-! Claim C6: what re-revoking a record actually does. -/

/-- A row rewrite that leaves the predicate's input unchanged leaves the
filter count unchanged. -/
theorem length_filter_map_of_pred_inv (L : Ledger)
    (f : RefreshToken → RefreshToken) (p : RefreshToken → Bool)
    (hp : ∀ t, p (f t) = p t) :
    ((L.map f).filter p).length = (L.filter p).length := by
  induction L with
  | nil => rfl
  | cons a l ih =>
    simp only [List.map_cons, List.filter_cons, hp a]
    cases hpa : p a <;> simp [hpa, ih]

/-- C6 counterexample: revoking the same record twice is not a no-op and
does not preserve the terminal state: the second call (later clock, no
replacement) overwrites `revoked_at` from 10 to 20 and clears
`replaced_by_id`, so `is_revoked`/`revoked_at` are not left unchanged. -/
theorem revoke_twice_not_noop_cex :
    (revoke_token (revoke_token [freshRecC6] 0 (some 5) 10).1 0 none 20).1 ≠
      (revoke_token [freshRecC6] 0 (some 5) 10).1 := by
  decide

/-- C6 (amended): re-revoking a record id still returns the same success
flag and keeps `is_revoked = true`, and with identical timestamp and
replacement argument the second call is exactly idempotent; but in
general the second call overwrites `revoked_at` with its own clock value
and `replaced_by_id` with its own argument (clearing it when absent). -/
theorem revoke_token_reapply (L : Ledger) (i : Nat) (r r2 : Option Nat)
    (now now2 : Int) :
    ((revoke_token (revoke_token L i r now).1 i r2 now2).2 =
      (revoke_token L i r now).2) ∧
    ((revoke_token (revoke_token L i r now).1 i r now).1 =
      (revoke_token L i r now).1) ∧
    (∀ t ∈ L, t.id = i →
      { t with is_revoked := true, revoked_at := some now2,
               replaced_by_id := r2 } ∈
        (revoke_token (revoke_token L i r now).1 i r2 now2).1) := by
  refine ⟨?_, ?_, ?_⟩
  · simp only [revoke_token, sqlUpdate]
    rw [length_filter_map_of_pred_inv L _ _
      (fun t => by by_cases h : t.id == i <;> simp [h])]
  · simp only [revoke_token, sqlUpdate, List.map_map]
    apply List.map_congr_left
    intro a _
    by_cases h : a.id == i <;> simp [Function.comp, h]
  · intro t ht hid
    simp only [revoke_token, sqlUpdate, List.map_map]
    refine List.mem_map.mpr ⟨t, ht, ?_⟩
    simp [Function.comp, hid]

/-- Witness for the amended C6 on the one-row ledger. -/
theorem revoke_token_reapply_witness :
    (freshRecC6 ∈ [freshRecC6] ∧ freshRecC6.id = 0) ∧
    { freshRecC6 with is_revoked := true, revoked_at := some 20,
                      replaced_by_id := none } ∈
      (revoke_token (revoke_token [freshRecC6] 0 (some 5) 10).1 0 none 20).1 :=
  ⟨⟨by decide, by decide⟩,
    (revoke_token_reapply [freshRecC6] 0 (some 5) none 10 20).2.2 freshRecC6
      (by decide) (by decide)⟩

/-! Claim C10: revoking a nonexistent id. -/

/-- C10: revoking an id with no matching row updates nothing and returns
false, leaving every record unchanged. -/
theorem revoke_token_missing_id (L : Ledger) (i : Nat) (r : Option Nat)
    (now : Int) (h : ∀ t ∈ L, t.id ≠ i) :
    revoke_token L i r now = (L, false) := by
  have hmap : (L.map fun t => if t.id == i then
      { t with is_revoked := true, revoked_at := some now,
               replaced_by_id := r } else t) = L := by
    have h2 : ∀ a ∈ L, (if a.id == i then
        { a with is_revoked := true, revoked_at := some now,
                 replaced_by_id := r } else a) = id a :=
      fun a ha => by simp [h a ha]
    rw [List.map_congr_left h2, List.map_id]
  have hfil : L.filter (fun t => t.id == i) = [] :=
    List.filter_eq_nil_iff.mpr (by intro a ha; simp [h a ha])
  simp only [revoke_token, sqlUpdate, hmap, hfil]
  rfl

/-- Witness for C10 at a one-row ledger and an absent id. -/
theorem revoke_token_missing_id_witness :
    (∀ t ∈ [soleRecC10], t.id ≠ 3) ∧
    revoke_token [soleRecC10] 3 none 0 = ([soleRecC10], false) :=
  ⟨by decide, revoke_token_missing_id [soleRecC10] 3 none 0 (by decide)⟩

/-! Claim C8: the cache write contract. -/

/-- C8 counterexample: half a second of remaining lifetime is a strictly
positive duration, yet the write is skipped, because the TTL is the
truncation `int(total_seconds())` and `int(0.5) = 0`. -/
theorem cache_refresh_token_subsecond_cex :
    (0:Int) < 500000 - 0 ∧
    cache_refresh_token [] "a" 3 none 500000 0 = [] := by
  decide

/-- C8 (amended): the write is keyed on whole seconds of remaining life:
an entry is stored — with TTL the truncated second count — iff at least
one full second remains; any shorter (or non-positive) remainder skips
the write. -/
theorem cache_refresh_token_spec (c : Cache) (h : String) (uid : Nat)
    (did : Option String) (exp now : Int) :
    (usecPerSec ≤ exp - now →
      cache_refresh_token c h uid did exp now =
        redisSet c (cacheKey h) ⟨uid, did, exp⟩
          (Int.tdiv (exp - now) usecPerSec)) ∧
    (exp - now < usecPerSec →
      cache_refresh_token c h uid did exp now = c) := by
  constructor
  · intro hle
    simp only [cache_refresh_token]
    rw [if_pos ((tdiv_usec_pos_iff _).mpr hle)]
  · intro hlt
    simp only [cache_refresh_token]
    rw [if_neg (fun hp => absurd ((tdiv_usec_pos_iff _).mp hp) (by omega))]

/-- Witness for the amended C8: three full seconds remaining are
written. -/
theorem cache_refresh_token_spec_witness :
    usecPerSec ≤ (3000000:Int) - 0 ∧
    cache_refresh_token [] "w8" 1 none 3000000 0 =
      redisSet [] (cacheKey "w8") ⟨1, none, 3000000⟩
        (Int.tdiv ((3000000:Int) - 0) usecPerSec) :=
  ⟨by decide, (cache_refresh_token_spec [] "w8" 1 none 3000000 0).1 (by decide)⟩

/-! Claim C9: revocation is monotone under every ledger mutator. -/

/-- A SQL update whose `SET` clause keeps the id and never clears
`is_revoked` cannot unrevoke a readable record. -/
theorem noUnrevoke_sqlUpdate (L : Ledger) (cond : RefreshToken → Bool)
    (vals : RefreshToken → RefreshToken)
    (hv : ∀ t, (vals t).id = t.id)
    (hrev : ∀ t, t.is_revoked = true → (vals t).is_revoked = true) :
    noUnrevoke L (sqlUpdate L cond vals).1 := by
  intro i t t' hgt hrevt hgt'
  rw [getById_sqlUpdate L cond vals hv i, hgt] at hgt'
  have h2 : (if cond t then vals t else t) = t' := by
    simp only [Option.map] at hgt'
    exact Option.some.inj hgt'
  subst h2
  by_cases hc : cond t
  · rw [if_pos hc]
    exact hrev t hrevt
  · rw [if_neg hc]
    exact hrevt

/-- C9: every ledger mutator is monotone in `is_revoked`: a record
readable as revoked before the operation is still readable as revoked
after it — creation only appends, every revoke-style update only sets
`is_revoked := true`, and the sweep only deletes rows.  (Read operations
return values and leave the ledger untouched by construction.) -/
theorem revocation_monotone (L : Ledger) (now : Int)
    (hN : (L.map RefreshToken.id).Nodup) :
    (∀ i uid th did dn ua ip delta pid,
      noUnrevoke L (create_token L i uid th did dn ua ip delta pid now)) ∧
    (∀ i r, noUnrevoke L (revoke_token L i r now).1) ∧
    (∀ i, noUnrevoke L (revoke_token_chain L i now).1) ∧
    (∀ uid e, noUnrevoke L (revoke_all_user_tokens L uid e now).1) ∧
    (∀ uid d, noUnrevoke L (revoke_device_tokens L uid d now).1) ∧
    noUnrevoke L (cleanup_expired_tokens L now).1 := by
  refine ⟨?_, ?_, ?_, ?_, ?_, ?_⟩
  · intro i uid th did dn ua ip delta pid j t t' hgt hrevt hgt'
    unfold create_token at hgt'
    rw [getById_append_left _ hgt] at hgt'
    cases hgt'
    exact hrevt
  · intro i r
    exact noUnrevoke_sqlUpdate L (fun t => t.id == i)
      (fun t => { t with is_revoked := true, revoked_at := some now,
                         replaced_by_id := r })
      (fun t => rfl) (fun t _ => rfl)
  · intro i j t t' hgt hrevt hgt'
    unfold revoke_token_chain at hgt'
    cases hg : getById L i with
    | none =>
      rw [hg] at hgt'
      rw [hgt] at hgt'
      cases hgt'
      exact hrevt
    | some token =>
      rw [hg] at hgt'
      by_cases hemp : (collectChain L token.id token).isEmpty
      · simp only [hemp, if_true] at hgt'
        rw [hgt] at hgt'
        cases hgt'
        exact hrevt
      · simp only [hemp, if_false] at hgt'
        exact noUnrevoke_sqlUpdate L
          (fun t => (collectChain L token.id token).contains t.id)
          (fun t => { t with is_revoked := true, revoked_at := some now })
          (fun t => rfl) (fun t _ => rfl) j t t' hgt hrevt hgt'
  · intro uid e
    exact noUnrevoke_sqlUpdate L
      (fun t => t.user_id == uid && !t.is_revoked &&
        (match e with
         | some x => t.id != x
         | none => true))
      (fun t => { t with is_revoked := true, revoked_at := some now })
      (fun t => rfl) (fun t _ => rfl)
  · intro uid d
    exact noUnrevoke_sqlUpdate L
      (fun t => t.user_id == uid && t.device_id == some d && !t.is_revoked)
      (fun t => { t with is_revoked := true, revoked_at := some now })
      (fun t => rfl) (fun t _ => rfl)
  · intro j t t' hgt hrevt hgt'
    unfold cleanup_expired_tokens at hgt'
    have hs := getById_spec hgt
    have hs' := getById_spec hgt'
    have hmem' : t' ∈ L := (List.mem_filter.mp hs'.1).1
    have : t' = t := List.inj_on_of_nodup_map hN hmem' hs.1 (by rw [hs.2, hs'.2])
    rw [this]
    exact hrevt

/-- Witness for C9: a revoked record stays revoked across a bulk
revoke. -/
theorem revocation_monotone_witness : recC9.is_revoked = true :=
  (revocation_monotone [recC9] 9 (by decide)).2.2.2.1 0 none 0 recC9 recC9
    (by decide) (by decide) (by decide)

/-! Claim C4: the rotation round-trip postcondition. -/

/-- C4: for a valid (existing, non-revoked, unexpired) refresh secret
whose owner is active, and fresh oracle outputs (new id and new secret
hash unused in the ledger), a successful rotation returns the new pair,
leaves the old record revoked with `replaced_by_id` the new record's id,
and creates the new record with `parent_token_id` the old record's id. -/
theorem refresh_rotation_round_trip
    (w : World) (secret : String)
    (device_id device_name user_agent ip_address : Option String)
    (newSecret : String) (newId : Nat) (refreshTTL now : Int)
    (tok : RefreshToken) (user : User)
    (hN : (w.ledger.map RefreshToken.id).Nodup)
    (hfind : get_by_token_hash w.ledger (hash_token secret) = some tok)
    (hrev : tok.is_revoked = false)
    (hexp : now ≤ tok.expires_at)
    (huser : w.users.find? (fun u => u.id == tok.user_id) = some user)
    (hactive : user.is_active = true)
    (hfreshHash : ∀ t ∈ w.ledger, t.token_hash ≠ hash_token newSecret)
    (hfreshId : ∀ t ∈ w.ledger, t.id ≠ newId) :
    (refresh_access_token w secret device_id device_name user_agent
        ip_address newSecret newId refreshTTL now).2 =
      .success ⟨create_access_token user.id, newSecret⟩ ∧
    getById (refresh_access_token w secret device_id device_name user_agent
        ip_address newSecret newId refreshTTL now).1.ledger tok.id =
      some { tok with is_revoked := true, revoked_at := some now,
                      replaced_by_id := some newId } ∧
    getById (refresh_access_token w secret device_id device_name user_agent
        ip_address newSecret newId refreshTTL now).1.ledger newId =
      some (mintedRec newId user.id (hash_token newSecret)
        (pyOr device_id tok.device_id) (pyOr device_name tok.device_name)
        user_agent ip_address (now + refreshTTL) (some tok.id)) := by
  have htokmem := (get_by_token_hash_spec hfind).1
  have hne : tok.id ≠ newId := hfreshId tok htokmem
  have hnotexp : ¬(tok.expires_at < now) := by omega
  have hvalid : is_token_valid w.ledger (hash_token secret) now = true := by
    simp [is_token_valid, hfind, hrev, hnotexp]
  have hct : create_token w.ledger newId user.id (hash_token newSecret)
      (pyOr device_id tok.device_id) (pyOr device_name tok.device_name)
      user_agent ip_address refreshTTL none now =
      w.ledger ++ [mintedRec newId user.id (hash_token newSecret)
        (pyOr device_id tok.device_id) (pyOr device_name tok.device_name)
        user_agent ip_address (now + refreshTTL) none] := rfl
  have hnew : get_by_token_hash
      (w.ledger ++ [mintedRec newId user.id (hash_token newSecret)
        (pyOr device_id tok.device_id) (pyOr device_name tok.device_name)
        user_agent ip_address (now + refreshTTL) none]) (hash_token newSecret) =
      some (mintedRec newId user.id (hash_token newSecret)
        (pyOr device_id tok.device_id) (pyOr device_name tok.device_name)
        user_agent ip_address (now + refreshTTL) none) :=
    get_by_token_hash_append_fresh w.ledger _ hfreshHash
  have hparent : update_record_parent
      (w.ledger ++ [mintedRec newId user.id (hash_token newSecret)
        (pyOr device_id tok.device_id) (pyOr device_name tok.device_name)
        user_agent ip_address (now + refreshTTL) none])
      (mintedRec newId user.id (hash_token newSecret)
        (pyOr device_id tok.device_id) (pyOr device_name tok.device_name)
        user_agent ip_address (now + refreshTTL) none).id tok.id =
      w.ledger ++ [mintedRec newId user.id (hash_token newSecret)
        (pyOr device_id tok.device_id) (pyOr device_name tok.device_name)
        user_agent ip_address (now + refreshTTL) (some tok.id)] := by
    unfold update_record_parent sqlUpdate
    rw [List.map_append]
    have hidl : ∀ a ∈ w.ledger, (if a.id ==
        (mintedRec newId user.id (hash_token newSecret)
          (pyOr device_id tok.device_id) (pyOr device_name tok.device_name)
          user_agent ip_address (now + refreshTTL) none).id then
        { a with parent_token_id := some tok.id } else a) = id a :=
      fun a ha => by simp [mintedRec, hfreshId a ha]
    rw [List.map_congr_left hidl, List.map_id]
    simp [mintedRec]
  have hne2 : newId ≠ tok.id := fun h => hne h.symm
  refine ⟨?_, ?_, ?_⟩ <;>
    simp only [refresh_access_token, hvalid, if_true, hfind, huser, hactive,
      Bool.not_true, Bool.false_eq_true, if_false, create_token_pair, hct,
      hnew, hparent, revoke_token, sqlUpdate]
  · rw [getById_map _ _ (fun t => by by_cases h : t.id == tok.id <;> simp [h])
      tok.id]
    rw [getById_append_left _ (getById_of_mem hN htokmem)]
    simp [mintedRec]
  · rw [getById_map _ _ (fun t => by by_cases h : t.id == tok.id <;> simp [h])
      newId]
    rw [getById_append_right w.ledger _ newId hfreshId]
    simp [getById, mintedRec, hne2]

/-- Witness for C4: rotating the concrete valid secret `s` of user 1. -/
theorem refresh_rotation_round_trip_witness :
    (refresh_access_token wC4 "s" none none none none "t" 6 100 2).2 =
      .success ⟨create_access_token 1, "t"⟩ :=
  (refresh_rotation_round_trip wC4 "s" none none none none "t" 6 100 2
    tokC4 { id := 1, is_active := true } (by decide) (by decide) (by decide)
    (by decide) (by decide) (by decide) (by decide) (by decide)).1

/-! Claim C1: the reuse law. -/

/-- C1 (code-bug evidence): after secret `A` was rotated to `B`,
replaying `A` is rejected as reuse, but `revoke_token_chain` walks only
`parent_token_id` ancestors — all of which were already revoked by their
own rotations — so the live successor record for `B` (id 11) is not
revoked: it is still valid after the reuse detection and a subsequent
rotation with `B` succeeds, although both the spec's reuse law and the
service's own documentation ("the entire token chain is invalidated")
require the chain of length 2 to be fully revoked and the `B` rotation to
fail. -/
theorem reuse_leaves_successor_valid :
    rA2.2 = .success ⟨create_access_token 0, "B"⟩ ∧
    rA3.2 = .tokenReused ∧
    (getById rA3.1.ledger 11).map (fun t => t.is_revoked) = some false ∧
    is_token_valid rA3.1.ledger (hash_token "B") 2 = true ∧
    rA4.2 = .success ⟨create_access_token 0, "D"⟩ :=
  ⟨rfl, rfl, rfl, rfl, rfl⟩

/-! Claim C7: bulk logout with a spared token. -/

/-- C7: `revoke_all_user_tokens` marks revoked exactly the user's
non-revoked records other than the spared id and leaves every other
record unchanged; and in the scenario login (`t0`) → three rotations
(`t0→t1→t2→t3`) → `logout_all` sparing `t3`, records 100, 101, 102 end
revoked while `t3` is still valid. -/
theorem revoke_all_user_tokens_spec (L : Ledger) (uid : Nat)
    (e : Option Nat) (now : Int) :
    (∀ t ∈ L, t.user_id = uid → t.is_revoked = false → e ≠ some t.id →
      { t with is_revoked := true, revoked_at := some now } ∈
        (revoke_all_user_tokens L uid e now).1) ∧
    (∀ t ∈ L, t.user_id ≠ uid ∨ t.is_revoked = true ∨ e = some t.id →
      t ∈ (revoke_all_user_tokens L uid e now).1) ∧
    ((getById wD5.ledger 100).map (fun t => t.is_revoked) = some true ∧
     (getById wD5.ledger 101).map (fun t => t.is_revoked) = some true ∧
     (getById wD5.ledger 102).map (fun t => t.is_revoked) = some true ∧
     is_token_valid wD5.ledger (hash_token "t3") 4 = true) := by
  refine ⟨?_, ?_, rfl, rfl, rfl, rfl⟩
  · intro t ht h1 h2 h3
    unfold revoke_all_user_tokens sqlUpdate
    refine List.mem_map.mpr ⟨t, ht, ?_⟩
    cases e with
    | none => simp [h1, h2]
    | some x =>
      have hx : t.id ≠ x := fun hh => h3 (by rw [hh])
      simp [h1, h2, hx]
  · intro t ht h
    unfold revoke_all_user_tokens sqlUpdate
    refine List.mem_map.mpr ⟨t, ht, ?_⟩
    rcases h with h | h | h
    · simp [h]
    · simp [h]
    · subst h
      simp

/-- Witness for C7 at a two-record ledger sparing record 2. -/
theorem revoke_all_user_tokens_spec_witness :
    (recW7 ∈ [recW7, sparedW7] ∧ recW7.user_id = 3 ∧
      recW7.is_revoked = false ∧ (some 2 : Option Nat) ≠ some recW7.id) ∧
    { recW7 with is_revoked := true, revoked_at := some 6 } ∈
      (revoke_all_user_tokens [recW7, sparedW7] 3 (some 2) 6).1 :=
  ⟨⟨by decide, by decide, by decide, by decide⟩,
    (revoke_all_user_tokens_spec [recW7, sparedW7] 3 (some 2) 6).1 recW7
      (by decide) (by decide) (by decide) (by decide)⟩

end RefreshTokens
